import Mathlib

/-
Verification development for the add-on store download manager
(source/addonStore/network.py, class AddonFileDownloader).

The Python class is shallowly embedded as pure Lean functions over an
explicit state record.  Each method is translated into a function that
returns the new state together with a trace of observable events; each
event that corresponds to a mutation of a shared table or a file write
carries a boolean recording whether the method held DOWNLOAD_LOCK at
that point (transcribed from the `with self.DOWNLOAD_LOCK` blocks of
the source).  Python exceptions are modelled with `Except`: a method
that can raise returns `Except PyExn _` in its first component, and the
state component reflects the mutations performed before the raise.

External collaborators not part of this repository are modelled as
parameters: `sha256_checksum` (from utils.security) is an arbitrary
function `String → String`, the network behaviour of each GET attempt
is an element of `StreamBehavior`, and the user's answer to the
certificate trust prompt is the boolean carried by that behaviour.
-/

namespace NvdaNet

/-- The fields of an add-on list item / store model that the downloader
reads: identity, display name, URL, declared sha256, temporary download
path and final cache path. -/
structure AddonModel where
  addonId : String
  displayName : String
  url : String
  sha256 : String
  tempDownloadPath : String
  cachedDownloadPath : String
deriving DecidableEq, Repr

/-- Association-list lookup (model of Python dict indexing / `in`). -/
def lookupA {α β : Type} [DecidableEq α] (k : α) : List (α × β) → Option β
  | [] => none
  | p :: t => if p.1 = k then some p.2 else lookupA k t

/-- Association-list update (model of `d[k] = v`). -/
def setA {α β : Type} [DecidableEq α] (k : α) (v : β) : List (α × β) → List (α × β)
  | [] => [(k, v)]
  | p :: t => if p.1 = k then (k, v) :: t else p :: setA k v t

/-- Association-list removal (model of `d.pop(k, None)` / `del d[k]`;
a Python dict has unique keys, so removing every entry bearing the key
is the same operation). -/
def eraseA {α β : Type} [DecidableEq α] (k : α) : List (α × β) → List (α × β)
  | [] => []
  | p :: t => if p.1 = k then eraseA k t else p :: eraseA k t

/-- A file system: finite map from path to file content. -/
abbrev FS := List (String × String)

/-- Delete a file (model of `os.remove` after an existence check). -/
def fsRemove (p : String) (fs : FS) : FS := eraseA p fs

/-- Create or truncate-and-write a file (model of `open(p, "wb")` plus writes). -/
def fsSet (p v : String) (fs : FS) : FS := setA p v fs

/-- Append a chunk to an open file (model of `fd.write(chunk)`). -/
def fsAppend (p c : String) (fs : FS) : FS :=
  fsSet p ((lookupA p fs).getD "" ++ c) fs

/-- Python exceptions that the embedded code can raise or observe. -/
inductive PyExn where
  | keyError
  | fileNotFound
  | osError
  | assertionError
  | sslError (isCertVerification : Bool) (userConfirms : Bool)
  | requestException
  | displayable (message : String) (caption : String)
  | modelStuck
deriving DecidableEq, Repr

/-- Observable events emitted by the embedded methods.  The boolean on
table mutations and file operations records whether DOWNLOAD_LOCK was
held when the source performs that operation. -/
inductive Ev where
  | setProgress (a : AddonModel) (v : Nat) (locked : Bool)
  | removeProgressEntry (a : AddonModel) (locked : Bool)
  | clearProgressTable (locked : Bool)
  | setPendingEntry (fid : Nat) (locked : Bool)
  | removePendingEntry (fid : Nat) (locked : Bool)
  | clearPendingTable (locked : Bool)
  | setCompleteEntry (a : AddonModel) (p : Option String) (locked : Bool)
  | chunkWrite (path : String) (locked : Bool)
  | removeFile (path : String) (locked : Bool)
  | renameFile (src : String) (dst : String) (locked : Bool)
  | removeTmpDownloadDir
  | networkGet (url : String)
  | promptUser (confirmed : Bool)
  | installRootCert
  | callOnComplete (a : AddonModel) (p : Option String)
  | callOnDisplayableError (message : String)
  | logError (message : String)
deriving DecidableEq, Repr

/-- Behaviour of one `requests.get` attempt, supplied by the
environment: either the stream yields a list of chunks and completes,
or the GET/stream raises.  For a certificate-verification SSL error the
boolean carries the user's later answer to the trust prompt. -/
inductive StreamBehavior where
  | ok (chunks : List String)
  | sslCert (userConfirms : Bool)
  | sslOther
  | requestExn
  | osExn
deriving DecidableEq, Repr

/-- Outcome stored in a resolved future: a returned value or a raised
exception (`future.result()` / `future.exception()`). -/
inductive FutureOutcome where
  | result (r : Option String)
  | exn (e : PyExn)
deriving DecidableEq, Repr

/-- The observable state of one future as seen by the `_done` hook. -/
structure FutureState where
  fid : Nat
  isCancelledFlag : Bool
  isDone : Bool
  outcome : FutureOutcome
deriving DecidableEq, Repr

/-- State of one AddonFileDownloader instance plus the file system.
`progress` is the Progress Table, `pending` the pending-registration
table (future id paired with its request; the two callbacks are
abstracted into trace events), `complete` the Completion Table,
`executorAlive` whether `self._executor` is not None, and
`tmpDirExists` whether the temporary-download directory exists. -/
structure DLState where
  progress : List (AddonModel × Nat)
  pending : List (Nat × AddonModel)
  complete : List (AddonModel × Option String)
  executorAlive : Bool
  fs : FS
  tmpDirExists : Bool
deriving DecidableEq, Repr

/-- State produced by `__init__`: empty tables, a live executor, and
(when writing to disk is allowed) a cleared temporary-download
directory. -/
def initState (shouldWrite : Bool) (fs0 : FS) : DLState :=
  { progress := [], pending := [], complete := [],
    executorAlive := true, fs := fs0, tmpDirExists := shouldWrite }

/-- Dialog caption used by every displayable download error. -/
def failureCaption : String := "Add-on download failure"

/-- Message raised for a network-layer fault. -/
def msgUnableDownload (name : String) : String :=
  "Unable to download add-on: " ++ name

/-- Message raised for a local filesystem fault. -/
def msgUnableSave (name : String) : String :=
  "Unable to save add-on as a file: " ++ name

/-- Message raised on checksum mismatch. -/
def msgChecksumFailed (name : String) : String :=
  "Add-on download not safe: checksum failed for " ++ name

/-- Model of `str.casefold` as used for hex digests: lower-case every
character. -/
def pyCasefold (s : String) : String := ⟨s.data.map Char.toLower⟩

/-- `AddonFileDownloader._checkChecksum` (lines 354-359): digest of the
file content compared case-insensitively with the declared sha256.  The
digest function itself (utils.security.sha256_checksum) is external to
this repository and is passed in as `hash`. -/
def checkChecksum (hash : String → String) (content : String) (item : AddonModel) : Bool :=
  pyCasefold (hash content) = pyCasefold item.sha256

/-- The chunk loop of `_downloadAddonToPath` (lines 240-247): for each
chunk, under DOWNLOAD_LOCK, write the chunk to the temporary file, then
increment the Progress Table entry if it still exists, otherwise return
False (cancelled). -/
def chunkLoop (item : AddonModel) (path : String) :
    List String → DLState → DLState × Bool × List Ev
  | [], st => (st, true, [])
  | c :: rest, st =>
    let st1 : DLState := { st with fs := fsAppend path c st.fs }
    match lookupA item st1.progress with
    | some n =>
      let st2 : DLState := { st1 with progress := setA item (n + 1) st1.progress }
      let r := chunkLoop item path rest st2
      (r.1, r.2.1, Ev.chunkWrite path true :: Ev.setProgress item (n + 1) true :: r.2.2)
    | none =>
      (st1, false, [Ev.chunkWrite path true])

/-- `AddonFileDownloader._downloadAddonToPath` (lines 210-248): refuse
when writing to disk is disallowed (returns False, i.e. cancelled),
otherwise issue the GET and stream chunks to the temporary file. -/
def downloadAddonToPath (shouldWrite : Bool) (beh : StreamBehavior)
    (st : DLState) (item : AddonModel) (downloadFilePath : String) :
    Except PyExn Bool × DLState × List Ev :=
  if !shouldWrite then
    (.ok false, st, [Ev.logError "Should not write to disk, cancelling download"])
  else
    match beh with
    | .ok chunks =>
      let st0 : DLState := { st with fs := fsSet downloadFilePath "" st.fs }
      let r := chunkLoop item downloadFilePath chunks st0
      (.ok r.2.1, r.1, Ev.networkGet item.url :: r.2.2)
    | .sslCert c => (.error (.sslError true c), st, [Ev.networkGet item.url])
    | .sslOther => (.error (.sslError false false), st, [Ev.networkGet item.url])
    | .requestExn => (.error .requestException, st, [Ev.networkGet item.url])
    | .osExn => (.error .osError, st, [Ev.networkGet item.url])

/-- Decision produced by `_handleCertVerificationError`. -/
inductive CertDecision where
  | retryDownload
  | cancelledByUser
deriving DecidableEq, Repr

/-- `AddonFileDownloader._handleCertVerificationError` (lines 253-294):
for a certificate-verification error, prompt the user; on confirm,
install the certificate as a trusted root and signal a retry of
`_download`; on decline, signal cancellation (return None).  For any
other SSL error, raise a displayable network error. -/
def handleCertVerificationError (isCertVerification userConfirms : Bool)
    (item : AddonModel) : Except PyExn CertDecision × List Ev :=
  if isCertVerification then
    if userConfirms then
      (.ok .retryDownload, [Ev.promptUser true, Ev.installRootCert])
    else
      (.ok .cancelledByUser, [Ev.promptUser false])
  else
    (.error (.displayable (msgUnableDownload item.displayName) failureCaption), [])

/-- `AddonFileDownloader._download` (lines 296-352).  The list `net`
supplies the behaviour of each successive GET attempt (the head is
consumed by the current attempt; a retry granted by the certificate
flow consumes the next element).  Steps, in source order: delete a
stale file at the final cache path (not under the lock); under the
lock, return None if the Progress Table entry is gone; stream via
`downloadAddonToPath`; on SSL error delegate to the certificate flow
and on a granted retry recurse once on the remaining attempts; convert
other network and filesystem faults to displayable errors; verify the
checksum, deleting the temporary file and raising a displayable error
on mismatch; on success rename the temporary file onto the cache path
under the lock and return that path. -/
def downloadWorker (shouldWrite : Bool) (hash : String → String) :
    List StreamBehavior → DLState → AddonModel →
    Except PyExn (Option String) × DLState × List Ev
  | net, st, item =>
    let cachePath := item.cachedDownloadPath
    let staleThere := (lookupA cachePath st.fs).isSome
    let st1 : DLState := if staleThere then { st with fs := fsRemove cachePath st.fs } else st
    let ev1 : List Ev := if staleThere then [Ev.removeFile cachePath false] else []
    if (lookupA item st1.progress).isNone then
      (.ok none, st1, ev1)
    else
      match net with
      | [] => (.error .modelStuck, st1, ev1)
      | beh :: rest =>
        let r := downloadAddonToPath shouldWrite beh st1 item item.tempDownloadPath
        let st2 := r.2.1
        let ev2 := r.2.2
        match r.1 with
        | .ok false => (.ok none, st2, ev1 ++ ev2)
        | .ok true =>
          match lookupA item.tempDownloadPath st2.fs with
          | none => (.error .fileNotFound, st2, ev1 ++ ev2)
          | some content =>
            if checkChecksum hash content item then
              (.ok (some cachePath),
               { st2 with fs := fsSet cachePath content (fsRemove item.tempDownloadPath st2.fs) },
               ev1 ++ ev2 ++ [Ev.renameFile item.tempDownloadPath cachePath true])
            else
              (.error (.displayable (msgChecksumFailed item.displayName) failureCaption),
               { st2 with fs := fsRemove item.tempDownloadPath st2.fs },
               ev1 ++ ev2 ++ [Ev.removeFile item.tempDownloadPath true])
        | .error (.sslError isCert confirm) =>
          let h := handleCertVerificationError isCert confirm item
          match h.1 with
          | .ok .retryDownload =>
            let r4 := downloadWorker shouldWrite hash rest st2 item
            (r4.1, r4.2.1, ev1 ++ ev2 ++ h.2 ++ r4.2.2)
          | .ok .cancelledByUser => (.ok none, st2, ev1 ++ ev2 ++ h.2)
          | .error e => (.error e, st2, ev1 ++ ev2 ++ h.2)
        | .error .requestException =>
          (.error (.displayable (msgUnableDownload item.displayName) failureCaption),
           st2, ev1 ++ ev2)
        | .error .osError =>
          (.error (.displayable (msgUnableSave item.displayName) failureCaption),
           st2, ev1 ++ ev2)
        | .error e => (.error e, st2, ev1 ++ ev2)

/-- The cancellation classifier of `_done` (lines 147-151): the future
reports cancelled, OR it is absent from the pending-registration table,
OR its request is absent from the Progress Table (short-circuit `or`,
so the third test is only reached when the second found an entry). -/
def doneIsCancelled (st : DLState) (fut : FutureState) : Bool :=
  fut.isCancelledFlag ||
    (lookupA fut.fid st.pending).isNone ||
    (match lookupA fut.fid st.pending with
     | some item => (lookupA item st.progress).isNone
     | none => true)

/-- The body of the `try` block in the cancelled branch of `_done`
(lines 161-164): look the future up in the pending table (a missing
key raises KeyError) and `os.remove` its temporary file (a missing
file raises FileNotFoundError). -/
def removeInProgressFile (st : DLState) (fut : FutureState) :
    Except PyExn (DLState × List Ev) :=
  match lookupA fut.fid st.pending with
  | none => .error .keyError
  | some item =>
    match lookupA item.tempDownloadPath st.fs with
    | none => .error .fileNotFound
    | some _ =>
      .ok ({ st with fs := fsRemove item.tempDownloadPath st.fs },
           [Ev.removeFile item.tempDownloadPath true])

/-- `AddonFileDownloader._done` (lines 145-195), the completion hook.
Cancelled case: best-effort delete of the temporary file (KeyError and
any other exception are caught and logged, FileNotFoundError is
silently ignored), no callback, return.  Otherwise: a DisplayableError
raised by the worker is forwarded (via callLater) to
onDisplayableError, any other exception is only logged; then, under the
lock, the pending registration and the Progress Table entry are
removed, the outcome is recorded in the Completion Table, and
onComplete is invoked with the request and the path-or-None. -/
def doneHook (st : DLState) (fut : FutureState) : DLState × List Ev :=
  let c0 := doneIsCancelled st fut
  let evLogic : List Ev :=
    if !fut.isDone then [Ev.logError "Logic error with download in BG thread."] else []
  let c1 := c0 || !fut.isDone
  if c1 then
    match removeInProgressFile st fut with
    | .ok r => (r.1, evLogic ++ r.2)
    | .error .fileNotFound => (st, evLogic)
    | .error _ =>
      (st, evLogic ++ [Ev.logError "Error while deleting partially downloaded file"])
  else
    match lookupA fut.fid st.pending with
    | none => (st, evLogic)
    | some item =>
      let outcomeEv : Option String × List Ev :=
        match fut.outcome with
        | .exn e =>
          match e with
          | .displayable m _ => (none, [Ev.callOnDisplayableError m])
          | _ => (none, [Ev.logError "Unhandled exception in _download"])
        | .result r => (r, [])
      let cacheFilePath := outcomeEv.1
      ({ st with
          pending := eraseA fut.fid st.pending,
          progress := eraseA item st.progress,
          complete := setA item cacheFilePath st.complete },
       evLogic ++ outcomeEv.2 ++
         [Ev.removePendingEntry fut.fid true,
          Ev.removeProgressEntry item true,
          Ev.setCompleteEntry item cacheFilePath true,
          Ev.callOnComplete item cacheFilePath])

/-- `AddonFileDownloader.download` (lines 126-143), the submit
operation: create the Progress Table entry (count 0) before scheduling
the worker — the source does this deliberately without taking the lock
— then `assert self._executor` and register the future in the pending
table.  On a dead executor the assert raises after the progress entry
has already been created. -/
def downloadMethod (st : DLState) (item : AddonModel) (fid : Nat) :
    Except PyExn Unit × DLState × List Ev :=
  let st1 : DLState := { st with progress := setA item 0 st.progress }
  let ev1 : List Ev := [Ev.setProgress item 0 false]
  if !st.executorAlive then
    (.error .assertionError, st1, ev1)
  else
    (.ok (), { st1 with pending := setA fid item st1.pending },
     ev1 ++ [Ev.setPendingEntry fid false])

/-- `AddonFileDownloader.cancelAll` (lines 197-208): cancel every
pending future (best-effort, no table effect here), `assert
self._executor` (which fails on a second call, since the first set the
executor to None), shut the pool down, clear the Progress Table and the
pending table under the lock, and `shutil.rmtree` the
temporary-download directory (which raises FileNotFoundError when the
directory is already gone). -/
def cancelAll (st : DLState) : Except PyExn Unit × DLState × List Ev :=
  if !st.executorAlive then
    (.error .assertionError, st, [])
  else
    let st1 : DLState :=
      { st with executorAlive := false, progress := [], pending := [] }
    let evs : List Ev := [Ev.clearProgressTable true, Ev.clearPendingTable true]
    if st1.tmpDirExists then
      (.ok (), { st1 with tmpDirExists := false }, evs ++ [Ev.removeTmpDownloadDir])
    else
      (.error .fileNotFound, st1, evs)

/-- Events in the scope of the locking invariant of the spec: mutations
of the Progress Table and the Completion Table, and chunk writes to a
temporary file. -/
def isGuardedMutation : Ev → Bool
  | .setProgress _ _ _ => true
  | .removeProgressEntry _ _ => true
  | .clearProgressTable _ => true
  | .setCompleteEntry _ _ _ => true
  | .chunkWrite _ _ => true
  | _ => false

/-- Whether an event was performed while holding DOWNLOAD_LOCK (events
with no lock annotation count as held, they are outside the invariant's
scope anyway). -/
def evLocked : Ev → Bool
  | .setProgress _ _ l => l
  | .removeProgressEntry _ l => l
  | .clearProgressTable l => l
  | .setPendingEntry _ l => l
  | .removePendingEntry _ l => l
  | .clearPendingTable l => l
  | .setCompleteEntry _ _ l => l
  | .chunkWrite _ l => l
  | .removeFile _ l => l
  | .renameFile _ _ l => l
  | _ => true

/-- A trace satisfies the locking invariant when every guarded mutation
in it was performed under the lock. -/
def lockDiscipline (tr : List Ev) : Bool :=
  tr.all fun e => !isGuardedMutation e || evLocked e

/-- Event classifiers used in trace statements. -/
def isNetGet : Ev → Bool
  | .networkGet _ => true
  | _ => false

def isInstallCert : Ev → Bool
  | .installRootCert => true
  | _ => false

def isPrompt : Ev → Bool
  | .promptUser _ => true
  | _ => false

def isOnCompleteEv : Ev → Bool
  | .callOnComplete _ _ => true
  | _ => false

def isOnDisplayableErrorEv : Ev → Bool
  | .callOnDisplayableError _ => true
  | _ => false

def isCallbackEv (e : Ev) : Bool := isOnCompleteEv e || isOnDisplayableErrorEv e

def isRemoveFileEv : Ev → Bool
  | .removeFile _ _ => true
  | _ => false

def isLogErrorEv : Ev → Bool
  | .logError _ => true
  | _ => false

/-- Number of events of a trace satisfying `p`. -/
def countEv (p : Ev → Bool) (tr : List Ev) : Nat := (tr.filter p).length

/-- Whether an exception is a DisplayableError. -/
def isDisplayable : PyExn → Bool
  | .displayable _ _ => true
  | _ => false

/-- A concrete request used in witnesses and counterexamples. -/
def sampleItem : AddonModel :=
  { addonId := "calc", displayName := "Calculator", url := "https://host/calc.nvda-addon",
    sha256 := "AB", tempDownloadPath := "/tmp/calc.download",
    cachedDownloadPath := "/cache/calc-1.0.nvda-addon" }

/-- A concrete digest function used in witnesses: digest of the string
"data" is "ab", anything else hashes to "ff". -/
def sampleHash (s : String) : String := if s = "data" then "ab" else "ff"

def isRenameEv : Ev → Bool
  | .renameFile _ _ _ => true
  | _ => false

/-- Concatenation of the streamed chunks: the full content written to
the temporary file. -/
def joinChunks : List String → String
  | [] => ""
  | c :: r => c ++ joinChunks r

/-- A state with one in-flight request: `sampleItem` submitted as
future 0, no files on disk. -/
def stBase : DLState :=
  { progress := [(sampleItem, 0)], pending := [(0, sampleItem)], complete := [],
    executorAlive := true, fs := [], tmpDirExists := true }

/-- `sampleItem` with a declared checksum that does not match the
digest of the streamed content. -/
def badItem : AddonModel := { sampleItem with sha256 := "00" }

/-- A state with `badItem` in flight as future 0. -/
def stBad : DLState :=
  { progress := [(badItem, 0)], pending := [(0, badItem)], complete := [],
    executorAlive := true, fs := [], tmpDirExists := true }

/-- A state with `sampleItem` in flight and a stale file already at its
final cache path. -/
def stStale : DLState :=
  { stBase with fs := [(sampleItem.cachedDownloadPath, "old")] }

/-- A state with `sampleItem` in flight and a partially written
temporary file on disk. -/
def stTemp : DLState :=
  { stBase with fs := [(sampleItem.tempDownloadPath, "part")] }

end NvdaNet

namespace NvdaNet

theorem lookupA_setA_self {α β : Type} [DecidableEq α] (k : α) (v : β)
    (l : List (α × β)) : lookupA k (setA k v l) = some v := by
  induction l with
  | nil => simp [setA, lookupA]
  | cons p t ih =>
    by_cases h : p.1 = k
    · simp [setA, h, lookupA]
    · simp [setA, h, lookupA, ih]

theorem lookupA_setA_ne {α β : Type} [DecidableEq α] {q k : α} (v : β)
    (l : List (α × β)) (h : q ≠ k) : lookupA q (setA k v l) = lookupA q l := by
  have hk : k ≠ q := Ne.symm h
  induction l with
  | nil => simp [setA, lookupA, hk]
  | cons p t ih =>
    by_cases hp : p.1 = k
    · simp [setA, hp, lookupA, hk]
    · simp [setA, hp, lookupA, ih]

theorem lookupA_eraseA_self {α β : Type} [DecidableEq α] (k : α)
    (l : List (α × β)) : lookupA k (eraseA k l) = none := by
  induction l with
  | nil => simp [eraseA, lookupA]
  | cons p t ih =>
    by_cases h : p.1 = k
    · simp [eraseA, h, ih]
    · simp [eraseA, h, lookupA, ih]

theorem lookupA_eraseA_ne {α β : Type} [DecidableEq α] {q k : α}
    (l : List (α × β)) (h : q ≠ k) : lookupA q (eraseA k l) = lookupA q l := by
  induction l with
  | nil => simp [eraseA, lookupA]
  | cons p t ih =>
    by_cases hp : p.1 = k
    · have hpq : p.1 ≠ q := by rw [hp]; exact Ne.symm h
      simp [eraseA, hp, lookupA, hpq, Ne.symm h, ih]
    · simp [eraseA, hp, lookupA, ih]

theorem strNilAppend (s : String) : "" ++ s = s := by
  apply String.ext
  simp [String.data_append]

theorem strAppendAssoc (a b c : String) : (a ++ b) ++ c = a ++ (b ++ c) := by
  apply String.ext
  simp [String.data_append]

theorem strAppendEmpty (s : String) : s ++ "" = s := by
  apply String.ext
  simp [String.data_append]

theorem chunkLoop_present (item : AddonModel) (path : String) :
    ∀ (chunks : List String) (st : DLState) (k : Nat) (w : String),
    lookupA item st.progress = some k →
    lookupA path st.fs = some w →
    (chunkLoop item path chunks st).2.1 = true ∧
    lookupA path (chunkLoop item path chunks st).1.fs = some (w ++ joinChunks chunks) ∧
    (∀ q, q ≠ path → lookupA q (chunkLoop item path chunks st).1.fs = lookupA q st.fs) ∧
    lookupA item (chunkLoop item path chunks st).1.progress = some (k + chunks.length) ∧
    (chunkLoop item path chunks st).1.pending = st.pending ∧
    (chunkLoop item path chunks st).1.complete = st.complete ∧
    (chunkLoop item path chunks st).1.executorAlive = st.executorAlive ∧
    (chunkLoop item path chunks st).1.tmpDirExists = st.tmpDirExists := by
  intro chunks
  induction chunks with
  | nil =>
    intro st k w hp hf
    simp [chunkLoop, hp, hf, joinChunks, strAppendEmpty]
  | cons c rest ih =>
    intro st k w hp hf
    have hgd : (lookupA path st.fs).getD "" = w := by rw [hf]; rfl
    have hf1 : lookupA path (fsAppend path c st.fs) = some (w ++ c) := by
      rw [fsAppend, hgd, fsSet]; exact lookupA_setA_self path (w ++ c) st.fs
    have hstep := ih { st with fs := fsAppend path c st.fs,
                               progress := setA item (k + 1) st.progress }
      (k + 1) (w ++ c) (lookupA_setA_self item (k + 1) st.progress) hf1
    simp only [chunkLoop, hp]
    refine ⟨hstep.1, ?_, ?_, ?_, hstep.2.2.2.2.1, hstep.2.2.2.2.2.1,
      hstep.2.2.2.2.2.2.1, hstep.2.2.2.2.2.2.2⟩
    · rw [hstep.2.1, joinChunks, strAppendAssoc]
    · intro q hq
      rw [hstep.2.2.1 q hq, fsAppend, hgd, fsSet, lookupA_setA_ne _ _ hq]
    · rw [hstep.2.2.2.1]
      simp [List.length_cons]
      omega

theorem chunkLoop_count (item : AddonModel) (path : String) (p : Ev → Bool)
    (h1 : ∀ pth b, p (Ev.chunkWrite pth b) = false)
    (h2 : ∀ a v b, p (Ev.setProgress a v b) = false) :
    ∀ (chunks : List String) (st : DLState),
    countEv p (chunkLoop item path chunks st).2.2 = 0 := by
  intro chunks
  induction chunks with
  | nil => intro st; simp [chunkLoop, countEv]
  | cons c rest ih =>
    intro st
    simp only [chunkLoop]
    cases hm : lookupA item st.progress with
    | some n =>
      simp only [hm]
      simp [countEv, List.filter_cons, h1, h2]
      have := ih { st with fs := fsAppend path c st.fs,
                           progress := setA item (n + 1) st.progress }
      simpa [countEv] using this
    | none =>
      simp only [hm]
      simp [countEv, List.filter_cons, h1]

theorem chunkLoop_lock (item : AddonModel) (path : String) :
    ∀ (chunks : List String) (st : DLState),
    lockDiscipline (chunkLoop item path chunks st).2.2 = true := by
  intro chunks
  induction chunks with
  | nil => intro st; simp [chunkLoop, lockDiscipline]
  | cons c rest ih =>
    intro st
    simp only [chunkLoop]
    cases hm : lookupA item st.progress with
    | some n =>
      simp only [hm]
      simp [lockDiscipline, List.all_cons, isGuardedMutation, evLocked]
      have := ih { st with fs := fsAppend path c st.fs,
                           progress := setA item (n + 1) st.progress }
      simpa [lockDiscipline] using this
    | none =>
      simp only [hm]
      simp [lockDiscipline, List.all_cons, isGuardedMutation, evLocked]

theorem lockDiscipline_append (a b : List Ev) :
    lockDiscipline (a ++ b) = (lockDiscipline a && lockDiscipline b) := by
  simp [lockDiscipline, List.all_append]

theorem lockDiscipline_nil : lockDiscipline [] = true := rfl

theorem lockDiscipline_cons (e : Ev) (l : List Ev) :
    lockDiscipline (e :: l) =
      ((!isGuardedMutation e || evLocked e) && lockDiscipline l) := by
  simp [lockDiscipline, List.all_cons]

theorem countEv_append (p : Ev → Bool) (a b : List Ev) :
    countEv p (a ++ b) = countEv p a + countEv p b := by
  simp [countEv, List.filter_append]

theorem countEv_nil (p : Ev → Bool) : countEv p [] = 0 := rfl

theorem countEv_cons (p : Ev → Bool) (e : Ev) (l : List Ev) :
    countEv p (e :: l) = (if p e then 1 else 0) + countEv p l := by
  by_cases h : p e <;> simp [countEv, List.filter_cons, h, Nat.add_comm]

theorem downloadAddonToPath_lock (sw : Bool) (beh : StreamBehavior)
    (st : DLState) (item : AddonModel) (p : String) :
    lockDiscipline (downloadAddonToPath sw beh st item p).2.2 = true := by
  cases sw
  · simp [downloadAddonToPath, lockDiscipline, isGuardedMutation, evLocked]
  · cases beh with
    | ok chunks =>
      have := chunkLoop_lock item p chunks { st with fs := fsSet p "" st.fs }
      simp only [downloadAddonToPath, Bool.not_true, Bool.false_eq_true, if_false]
      simpa [lockDiscipline, List.all_cons, isGuardedMutation, evLocked] using this
    | sslCert c =>
      simp [downloadAddonToPath, lockDiscipline, isGuardedMutation, evLocked]
    | sslOther =>
      simp [downloadAddonToPath, lockDiscipline, isGuardedMutation, evLocked]
    | requestExn =>
      simp [downloadAddonToPath, lockDiscipline, isGuardedMutation, evLocked]
    | osExn =>
      simp [downloadAddonToPath, lockDiscipline, isGuardedMutation, evLocked]

theorem doneHook_lock (st : DLState) (fut : FutureState) :
    lockDiscipline (doneHook st fut).2 = true := by
  by_cases hc : doneIsCancelled st fut = true
  · cases hpd : lookupA fut.fid st.pending with
    | none =>
      cases hd : fut.isDone <;>
        simp [doneHook, removeInProgressFile, hpd, hc, hd,
          lockDiscipline, isGuardedMutation, evLocked]
    | some item =>
      cases hfs : lookupA item.tempDownloadPath st.fs <;>
        cases hd : fut.isDone <;>
        simp [doneHook, removeInProgressFile, hpd, hfs, hc, hd,
          lockDiscipline, isGuardedMutation, evLocked]
  · have hcb : doneIsCancelled st fut = false := by
      cases h : doneIsCancelled st fut
      · rfl
      · exact absurd h hc
    cases hd : fut.isDone with
    | false =>
      cases hpd : lookupA fut.fid st.pending with
      | none =>
        simp [doneHook, removeInProgressFile, hpd, hcb, hd,
          lockDiscipline, isGuardedMutation, evLocked]
      | some item =>
        cases hfs : lookupA item.tempDownloadPath st.fs <;>
          simp [doneHook, removeInProgressFile, hpd, hfs, hcb, hd,
            lockDiscipline, isGuardedMutation, evLocked]
    | true =>
      cases hpd : lookupA fut.fid st.pending with
      | none => simp [doneIsCancelled, hpd] at hcb
      | some item =>
        cases ho : fut.outcome with
        | result r =>
          simp [doneHook, hpd, hcb, hd, ho, lockDiscipline, isGuardedMutation, evLocked]
        | exn e =>
          cases e <;>
            simp [doneHook, hpd, hcb, hd, ho, lockDiscipline, isGuardedMutation, evLocked]

theorem cancelAll_lock (st : DLState) :
    lockDiscipline (cancelAll st).2.2 = true := by
  by_cases ha : st.executorAlive <;> by_cases ht : st.tmpDirExists <;>
    simp [cancelAll, ha, ht, lockDiscipline, isGuardedMutation, evLocked]

theorem downloadWorker_lock (sw : Bool) (hash : String → String) :
    ∀ (net : List StreamBehavior) (st : DLState) (item : AddonModel),
    lockDiscipline (downloadWorker sw hash net st item).2.2 = true := by
  intro net
  induction net with
  | nil =>
    intro st item
    by_cases hs : (lookupA item.cachedDownloadPath st.fs).isSome <;>
      simp [downloadWorker, hs, lockDiscipline, isGuardedMutation, evLocked] <;>
      split <;>
      simp [lockDiscipline, isGuardedMutation, evLocked]
  | cons beh rest ih =>
    intro st item
    simp only [downloadWorker]
    have hev1 : lockDiscipline (if (lookupA item.cachedDownloadPath st.fs).isSome = true
        then [Ev.removeFile item.cachedDownloadPath false] else ([] : List Ev)) = true := by
      by_cases hs : (lookupA item.cachedDownloadPath st.fs).isSome = true <;>
        simp [hs, lockDiscipline, isGuardedMutation, evLocked]
    generalize hev : (if (lookupA item.cachedDownloadPath st.fs).isSome = true
        then [Ev.removeFile item.cachedDownloadPath false] else ([] : List Ev)) = ev1
    rw [hev] at hev1
    generalize (if (lookupA item.cachedDownloadPath st.fs).isSome = true
        then { st with fs := fsRemove item.cachedDownloadPath st.fs } else st) = st1
    by_cases hpn : (lookupA item st1.progress).isNone = true
    · simp [hpn, hev1]
    · simp only [hpn, if_false, Bool.false_eq_true]
      rcases hr : downloadAddonToPath sw beh st1 item item.tempDownloadPath with ⟨res, st2, tr⟩
      have htr : lockDiscipline tr = true := by
        have h := downloadAddonToPath_lock sw beh st1 item item.tempDownloadPath
        rw [hr] at h
        exact h
      cases res with
      | ok b =>
        cases b
        · simp [lockDiscipline_append, hev1, htr]
        · cases hfs2 : lookupA item.tempDownloadPath st2.fs with
          | none => simp [hfs2, lockDiscipline_append, hev1, htr]
          | some content =>
            by_cases hck : checkChecksum hash content item = true <;>
              simp [hfs2, hck, lockDiscipline_append, lockDiscipline_cons,
                lockDiscipline_nil, isGuardedMutation, evLocked, hev1, htr]
      | error e =>
        cases e with
        | sslError isCert confirm =>
          cases isCert <;> cases confirm <;>
            simp [handleCertVerificationError, lockDiscipline_append, lockDiscipline_cons,
              lockDiscipline_nil, isGuardedMutation, evLocked, hev1, htr, ih]
        | keyError => simp [lockDiscipline_append, hev1, htr]
        | fileNotFound => simp [lockDiscipline_append, hev1, htr]
        | osError => simp [lockDiscipline_append, hev1, htr]
        | assertionError => simp [lockDiscipline_append, hev1, htr]
        | requestException => simp [lockDiscipline_append, hev1, htr]
        | displayable m c => simp [lockDiscipline_append, hev1, htr]
        | modelStuck => simp [lockDiscipline_append, hev1, htr]

/-- Claim C1, counterexample: the Progress Table entry created by the
`download` (submit) method — explicitly covered by the claim — is
written without holding DOWNLOAD_LOCK (network.py line 136, whose
comment says no lock is needed there), so the trace of `download` on a
fresh downloader violates the locking discipline the claim asserts. -/
theorem C1_counterexample :
    lockDiscipline (downloadMethod (initState true []) sampleItem 0).2.2 = false := by
  rfl

/-- Claim C1 (amended): every mutation of the Progress Table and the
Completion Table performed by the completion hook, by cancelAll and by
the download worker, and every temporary-file chunk write, happens
while holding DOWNLOAD_LOCK; the one exception is the Progress Table
entry created by `download` before the worker is scheduled, which is
the only guarded mutation in that method's trace and is performed
without the lock. -/
theorem C1_amended :
    (∀ (st : DLState) (fut : FutureState), lockDiscipline (doneHook st fut).2 = true) ∧
    (∀ st : DLState, lockDiscipline (cancelAll st).2.2 = true) ∧
    (∀ (sw : Bool) (hash : String → String) (net : List StreamBehavior)
       (st : DLState) (item : AddonModel),
       lockDiscipline (downloadWorker sw hash net st item).2.2 = true) ∧
    (∀ (st : DLState) (item : AddonModel) (fid : Nat),
       (downloadMethod st item fid).2.2.filter isGuardedMutation
         = [Ev.setProgress item 0 false]) := by
  refine ⟨doneHook_lock, cancelAll_lock,
    fun sw hash net st item => downloadWorker_lock sw hash net st item, ?_⟩
  intro st item fid
  by_cases ha : st.executorAlive <;>
    simp [downloadMethod, ha, List.filter_cons, List.filter_nil, isGuardedMutation]

/-- Claim C3, counterexample: calling `cancelAll` a second time does
not succeed — the first call set the executor to None, so the second
fails on `assert self._executor` with an AssertionError. -/
theorem C3_counterexample :
    (cancelAll (cancelAll (initState true [])).2.1).1
      = Except.error PyExn.assertionError := by
  rfl

/-- Claim C3 (amended): one `cancelAll` on a live downloader empties
the Progress Table and the pending-registration table, removes the
temporary-download directory and makes the pool unusable; a second
call raises AssertionError without changing the state further, and any
later submission also fails on the executor assertion. -/
theorem C3_amended (st : DLState) (ha : st.executorAlive = true)
    (ht : st.tmpDirExists = true) :
    (cancelAll st).1 = Except.ok () ∧
    (cancelAll st).2.1.progress = [] ∧
    (cancelAll st).2.1.pending = [] ∧
    (cancelAll st).2.1.executorAlive = false ∧
    (cancelAll st).2.1.tmpDirExists = false ∧
    (cancelAll (cancelAll st).2.1).1 = Except.error PyExn.assertionError ∧
    (cancelAll (cancelAll st).2.1).2.1 = (cancelAll st).2.1 ∧
    (∀ (item : AddonModel) (fid : Nat),
      (downloadMethod (cancelAll st).2.1 item fid).1
        = Except.error PyExn.assertionError) := by
  simp [cancelAll, ha, ht, downloadMethod]

/-- Witness for C3_amended at the freshly constructed downloader. -/
theorem C3_amended_witness :
    (initState true []).executorAlive = true ∧
    (initState true []).tmpDirExists = true ∧
    (cancelAll (initState true [])).1 = Except.ok () := by
  refine ⟨rfl, rfl, ?_⟩
  exact (C3_amended (initState true []) rfl rfl).1

/-- Claim C2, counterexample: a non-cancelled request whose worker
raised a non-displayable exception (here OSError) still gets
`onComplete(request, None)` invoked by the completion hook (network.py
lines 191-195 run regardless of the exception), contradicting the
claim that the caller receives no completion callback at all. -/
theorem C2_counterexample :
    doneIsCancelled stBase ⟨0, false, true, FutureOutcome.exn PyExn.osError⟩ = false ∧
    isDisplayable PyExn.osError = false ∧
    Ev.callOnComplete sampleItem none
      ∈ (doneHook stBase ⟨0, false, true, FutureOutcome.exn PyExn.osError⟩).2 := by
  refine ⟨rfl, rfl, ?_⟩
  decide

/-- Claim C2 (amended): for a non-cancelled request whose worker raised
an exception that is not a DisplayableError, the hook logs the fault
and does not notify onDisplayableError; it does, however, remove the
pending and progress entries, record None in the Completion Table, and
invoke `onComplete(request, None)`. -/
theorem C2_amended (st : DLState) (fut : FutureState) (item : AddonModel) (e : PyExn)
    (hd : fut.isDone = true) (hcf : fut.isCancelledFlag = false)
    (hpd : lookupA fut.fid st.pending = some item)
    (hpr : (lookupA item st.progress).isSome = true)
    (ho : fut.outcome = FutureOutcome.exn e) (hde : isDisplayable e = false) :
    Ev.logError "Unhandled exception in _download" ∈ (doneHook st fut).2 ∧
    countEv isOnDisplayableErrorEv (doneHook st fut).2 = 0 ∧
    Ev.callOnComplete item none ∈ (doneHook st fut).2 ∧
    lookupA item (doneHook st fut).1.complete = some none ∧
    lookupA fut.fid (doneHook st fut).1.pending = none ∧
    lookupA item (doneHook st fut).1.progress = none := by
  have hcan : doneIsCancelled st fut = false := by
    cases hlp : lookupA item st.progress with
    | none => rw [hlp] at hpr; simp at hpr
    | some k => simp [doneIsCancelled, hcf, hpd, hlp]
  cases e <;>
    simp_all [doneHook, hpd, hcan, hd, ho, isDisplayable, countEv,
      List.filter_cons, List.filter_nil, isOnDisplayableErrorEv,
      lookupA_eraseA_self, lookupA_setA_self]

/-- Witness for C2_amended: the concrete OSError scenario. -/
theorem C2_amended_witness :
    lookupA (0 : Nat) stBase.pending = some sampleItem ∧
    Ev.callOnComplete sampleItem none
      ∈ (doneHook stBase ⟨0, false, true, FutureOutcome.exn PyExn.requestException⟩).2 :=
  ⟨rfl,
   (C2_amended stBase ⟨0, false, true, FutureOutcome.exn PyExn.requestException⟩
      sampleItem PyExn.requestException rfl rfl rfl rfl rfl rfl).2.2.1⟩

/-- Claim C4 (confirmed): for a done future the hook classifies the
download as cancelled exactly when the future reports cancelled, or it
is absent from the pending-registration table, or its request is absent
from the Progress Table; in the cancelled case no callback event is
emitted, the three tables are untouched, and the registered temporary
file does not survive the hook (best-effort deletion), regardless of
the outcome the worker produced. -/
theorem C4_spec (st : DLState) (fut : FutureState) (hd : fut.isDone = true) :
    (doneIsCancelled st fut = true ↔
      (fut.isCancelledFlag = true ∨ lookupA fut.fid st.pending = none ∨
        ∃ item, lookupA fut.fid st.pending = some item ∧
          lookupA item st.progress = none)) ∧
    (doneIsCancelled st fut = true →
      countEv isCallbackEv (doneHook st fut).2 = 0 ∧
      (doneHook st fut).1.progress = st.progress ∧
      (doneHook st fut).1.pending = st.pending ∧
      (doneHook st fut).1.complete = st.complete ∧
      (∀ item, lookupA fut.fid st.pending = some item →
        lookupA item.tempDownloadPath (doneHook st fut).1.fs = none)) := by
  constructor
  · cases hpd : lookupA fut.fid st.pending with
    | none => simp [doneIsCancelled, hpd]
    | some item =>
      cases hcf : fut.isCancelledFlag <;>
        cases hpr : lookupA item st.progress <;>
          simp [doneIsCancelled, hpd, hcf, hpr]
  · intro hc
    cases hpd : lookupA fut.fid st.pending with
    | none =>
      simp [doneHook, removeInProgressFile, hpd, hc, hd, countEv,
        List.filter_cons, List.filter_nil, isCallbackEv, isOnCompleteEv,
        isOnDisplayableErrorEv]
    | some item =>
      cases hfs : lookupA item.tempDownloadPath st.fs <;>
        simp [doneHook, removeInProgressFile, hpd, hfs, hc, hd, countEv,
          List.filter_cons, List.filter_nil, isCallbackEv, isOnCompleteEv,
          isOnDisplayableErrorEv, fsRemove, lookupA_eraseA_self]

/-- Witness for C4_spec: a future that produced a genuine result but
whose handle reports cancelled — no callback, temporary file gone. -/
theorem C4_witness :
    doneIsCancelled stTemp ⟨0, true, true, FutureOutcome.result (some "late")⟩ = true ∧
    countEv isCallbackEv
      (doneHook stTemp ⟨0, true, true, FutureOutcome.result (some "late")⟩).2 = 0 := by
  refine ⟨by decide, ?_⟩
  exact ((C4_spec stTemp ⟨0, true, true, FutureOutcome.result (some "late")⟩ rfl).2
    (by decide)).1

/-- Claim C10 (confirmed): the cancelled branch of the hook never
propagates an exception.  When the future is absent from the pending
table the temporary-path lookup raises KeyError, which the catch-all
handler turns into a log line; when the temporary file is absent the
FileNotFoundError is silently swallowed.  In both cases the hook
returns normally with no callback and no state change. -/
theorem C10_spec (st : DLState) (fut : FutureState) (hd : fut.isDone = true) :
    (lookupA fut.fid st.pending = none →
      removeInProgressFile st fut = Except.error PyExn.keyError ∧
      doneIsCancelled st fut = true ∧
      doneHook st fut
        = (st, [Ev.logError "Error while deleting partially downloaded file"])) ∧
    (∀ item, lookupA fut.fid st.pending = some item →
      lookupA item.tempDownloadPath st.fs = none →
      doneIsCancelled st fut = true →
      removeInProgressFile st fut = Except.error PyExn.fileNotFound ∧
      doneHook st fut = (st, [])) := by
  constructor
  · intro hpd
    refine ⟨by simp [removeInProgressFile, hpd], by simp [doneIsCancelled, hpd], ?_⟩
    simp [doneHook, removeInProgressFile, doneIsCancelled, hpd, hd]
  · intro item hpd hfs hc
    refine ⟨by simp [removeInProgressFile, hpd, hfs], ?_⟩
    simp [doneHook, removeInProgressFile, hpd, hfs, hc, hd]

/-- Witness for C10_spec: a future never registered in the pending
table — KeyError caught, logged, normal return. -/
theorem C10_witness :
    lookupA (5 : Nat) stBase.pending = none ∧
    doneHook stBase ⟨5, false, true, FutureOutcome.result (some "p")⟩
      = (stBase, [Ev.logError "Error while deleting partially downloaded file"]) :=
  ⟨rfl,
   ((C10_spec stBase ⟨5, false, true, FutureOutcome.result (some "p")⟩ rfl).1 rfl).2.2⟩

theorem downloadWorker_declineCert (hash : String → String)
    (rest : List StreamBehavior) (st : DLState) (item : AddonModel) (k : Nat)
    (hpr : lookupA item st.progress = some k)
    (hnostale : lookupA item.cachedDownloadPath st.fs = none) :
    downloadWorker true hash (.sslCert false :: rest) st item
      = (Except.ok none, st, [Ev.networkGet item.url, Ev.promptUser false]) := by
  rw [downloadWorker]
  simp [downloadAddonToPath, handleCertVerificationError, hnostale, hpr]

theorem downloadWorker_confirmCert (hash : String → String)
    (rest : List StreamBehavior) (st : DLState) (item : AddonModel) (k : Nat)
    (hpr : lookupA item st.progress = some k)
    (hnostale : lookupA item.cachedDownloadPath st.fs = none) :
    downloadWorker true hash (.sslCert true :: rest) st item
      = ((downloadWorker true hash rest st item).1,
         (downloadWorker true hash rest st item).2.1,
         Ev.networkGet item.url :: Ev.promptUser true :: Ev.installRootCert ::
           (downloadWorker true hash rest st item).2.2) := by
  rw [downloadWorker]
  simp [downloadAddonToPath, handleCertVerificationError, hnostale, hpr]

/-- Claim C5 (confirmed): on a certificate-verification failure, a
declined prompt makes the worker return None (cancellation, not an
error) with a single GET and no certificate installed and no retry; a
confirmed prompt installs the certificate and re-runs the whole
download exactly once on the remaining attempts; when that single
retry fails with a second certificate error, it is not retried again
without a fresh prompt — with the second prompt declined the run ends
with exactly two GETs, one installed certificate, two prompts, and
result None. -/
theorem C5_spec (hash : String → String) (st : DLState) (item : AddonModel)
    (k : Nat) (rest : List StreamBehavior)
    (hpr : lookupA item st.progress = some k)
    (hnostale : lookupA item.cachedDownloadPath st.fs = none) :
    (downloadWorker true hash (.sslCert false :: rest) st item).1 = Except.ok none ∧
    countEv isNetGet (downloadWorker true hash (.sslCert false :: rest) st item).2.2 = 1 ∧
    countEv isInstallCert
      (downloadWorker true hash (.sslCert false :: rest) st item).2.2 = 0 ∧
    (downloadWorker true hash (.sslCert true :: rest) st item).1
      = (downloadWorker true hash rest st item).1 ∧
    (downloadWorker true hash (.sslCert true :: rest) st item).2.2
      = Ev.networkGet item.url :: Ev.promptUser true :: Ev.installRootCert ::
          (downloadWorker true hash rest st item).2.2 ∧
    (downloadWorker true hash [.sslCert true, .sslCert false] st item).1
      = Except.ok none ∧
    countEv isNetGet
      (downloadWorker true hash [.sslCert true, .sslCert false] st item).2.2 = 2 ∧
    countEv isInstallCert
      (downloadWorker true hash [.sslCert true, .sslCert false] st item).2.2 = 1 ∧
    countEv isPrompt
      (downloadWorker true hash [.sslCert true, .sslCert false] st item).2.2 = 2 := by
  have hdec := downloadWorker_declineCert hash rest st item k hpr hnostale
  have hdec2 := downloadWorker_declineCert hash [] st item k hpr hnostale
  have hconf := downloadWorker_confirmCert hash rest st item k hpr hnostale
  have hconf2 := downloadWorker_confirmCert hash [.sslCert false] st item k hpr hnostale
  refine ⟨?_, ?_, ?_, ?_, ?_, ?_, ?_, ?_, ?_⟩ <;>
    simp [hdec, hdec2, hconf, hconf2, countEv, List.filter_cons, List.filter_nil,
      isNetGet, isInstallCert, isPrompt]

/-- Witness for C5_spec: the decline scenario on the base state. -/
theorem C5_witness :
    lookupA sampleItem stBase.progress = some 0 ∧
    (downloadWorker true sampleHash
      [StreamBehavior.sslCert false] stBase sampleItem).1 = Except.ok none :=
  ⟨rfl, (C5_spec sampleHash stBase sampleItem 0 [] rfl rfl).1⟩

/-- Claim C9 (confirmed): when the user declines the trust prompt the
worker returns None and leaves the Progress Table entry in place, so
the completion hook does not classify the request as cancelled: it
removes the pending registration and the progress entry, records None
in the Completion Table and invokes `onComplete(request, None)`; no
file is deleted on this path. -/
theorem C9_spec (hash : String → String) (st : DLState) (item : AddonModel)
    (fid : Nat) (k : Nat) (rest : List StreamBehavior)
    (hpd : lookupA fid st.pending = some item)
    (hpr : lookupA item st.progress = some k)
    (hnostale : lookupA item.cachedDownloadPath st.fs = none) :
    (downloadWorker true hash (.sslCert false :: rest) st item).1 = Except.ok none ∧
    (downloadWorker true hash (.sslCert false :: rest) st item).2.1 = st ∧
    countEv isRemoveFileEv
      (downloadWorker true hash (.sslCert false :: rest) st item).2.2 = 0 ∧
    doneIsCancelled st ⟨fid, false, true, FutureOutcome.result none⟩ = false ∧
    doneHook st ⟨fid, false, true, FutureOutcome.result none⟩
      = ({ st with pending := eraseA fid st.pending,
                   progress := eraseA item st.progress,
                   complete := setA item none st.complete },
         [Ev.removePendingEntry fid true, Ev.removeProgressEntry item true,
          Ev.setCompleteEntry item none true, Ev.callOnComplete item none]) ∧
    countEv isRemoveFileEv (doneHook st ⟨fid, false, true, FutureOutcome.result none⟩).2 = 0 ∧
    lookupA item (doneHook st ⟨fid, false, true, FutureOutcome.result none⟩).1.complete
      = some none := by
  have hw := downloadWorker_declineCert hash rest st item k hpr hnostale
  have hcan : doneIsCancelled st ⟨fid, false, true, FutureOutcome.result none⟩ = false := by
    simp [doneIsCancelled, hpd, hpr]
  refine ⟨by rw [hw], by rw [hw], ?_, hcan, ?_, ?_, ?_⟩
  · rw [hw]; simp [countEv, List.filter_cons, List.filter_nil, isRemoveFileEv]
  · simp [doneHook, hpd, hcan]
  · simp [doneHook, hpd, hcan, countEv, List.filter_cons, List.filter_nil, isRemoveFileEv]
  · simp [doneHook, hpd, hcan, lookupA_setA_self]

/-- Witness for C9_spec: the decline scenario with a partially written
temporary file on disk, which survives the hook. -/
theorem C9_witness :
    lookupA (0 : Nat) stTemp.pending = some sampleItem ∧
    lookupA sampleItem
      (doneHook stTemp ⟨0, false, true, FutureOutcome.result none⟩).1.complete
      = some none :=
  ⟨rfl, (C9_spec sampleHash stTemp sampleItem 0 0 [] rfl rfl rfl).2.2.2.2.2.2⟩

theorem downloadWorker_okStream (hash : String → String) (chunks : List String)
    (rest : List StreamBehavior) (st : DLState) (item : AddonModel) (k : Nat)
    (hpr : lookupA item st.progress = some k)
    (hnostale : lookupA item.cachedDownloadPath st.fs = none) :
    (checkChecksum hash (joinChunks chunks) item = true →
      downloadWorker true hash (.ok chunks :: rest) st item
        = (Except.ok (some item.cachedDownloadPath),
           { (chunkLoop item item.tempDownloadPath chunks
                { st with fs := fsSet item.tempDownloadPath "" st.fs }).1 with
               fs := fsSet item.cachedDownloadPath (joinChunks chunks)
                 (fsRemove item.tempDownloadPath
                   (chunkLoop item item.tempDownloadPath chunks
                     { st with fs := fsSet item.tempDownloadPath "" st.fs }).1.fs) },
           Ev.networkGet item.url ::
             (chunkLoop item item.tempDownloadPath chunks
               { st with fs := fsSet item.tempDownloadPath "" st.fs }).2.2
             ++ [Ev.renameFile item.tempDownloadPath item.cachedDownloadPath true])) ∧
    (checkChecksum hash (joinChunks chunks) item = false →
      downloadWorker true hash (.ok chunks :: rest) st item
        = (Except.error
             (PyExn.displayable (msgChecksumFailed item.displayName) failureCaption),
           { (chunkLoop item item.tempDownloadPath chunks
                { st with fs := fsSet item.tempDownloadPath "" st.fs }).1 with
               fs := fsRemove item.tempDownloadPath
                 (chunkLoop item item.tempDownloadPath chunks
                   { st with fs := fsSet item.tempDownloadPath "" st.fs }).1.fs },
           Ev.networkGet item.url ::
             (chunkLoop item item.tempDownloadPath chunks
               { st with fs := fsSet item.tempDownloadPath "" st.fs }).2.2
             ++ [Ev.removeFile item.tempDownloadPath true])) := by
  obtain ⟨hok, hfsT, hfsO, hprog, hpend, hcomp, hexec, htmp⟩ :=
    chunkLoop_present item item.tempDownloadPath chunks
      { st with fs := fsSet item.tempDownloadPath "" st.fs } k ""
      (by simpa using hpr) (by simp [fsSet, lookupA_setA_self])
  rw [strNilAppend] at hfsT
  constructor <;> intro hck <;>
    (rw [downloadWorker.eq_def]
     simp [hnostale, hpr, downloadAddonToPath, hok, hfsT, hck])

/-- Claim C6, counterexample: with the storage-write gate off and a
stale file at the final cache path, the worker still deletes the stale
file (and checks the Progress Table) before the gate check — the trace
shows the deletion happening before the gate's log line, contradicting
the claimed order in which the gate check comes first. -/
theorem C6_counterexample :
    (downloadWorker false sampleHash [StreamBehavior.ok ["d"]] stStale sampleItem).1
      = Except.ok none ∧
    (downloadWorker false sampleHash [StreamBehavior.ok ["d"]] stStale sampleItem).2.2
      = [Ev.removeFile sampleItem.cachedDownloadPath false,
         Ev.logError "Should not write to disk, cancelling download"] := by
  constructor <;> rfl

/-- Claim C6 (amended): the worker first deletes a stale file at the
final cache path and checks the Progress Table under the lock, and only
then — inside the stream helper, before any network access — checks the
storage-write gate.  With the gate off the worker returns None
(cancelled) without any GET, and with the Progress Table entry absent
it returns None without any GET for every gate value. -/
theorem C6_amended :
    (∀ (hash : String → String) (beh : StreamBehavior) (rest : List StreamBehavior)
       (st : DLState) (item : AddonModel) (k : Nat),
      lookupA item st.progress = some k →
      (downloadWorker false hash (beh :: rest) st item).1 = Except.ok none ∧
      countEv isNetGet (downloadWorker false hash (beh :: rest) st item).2.2 = 0 ∧
      lookupA item.cachedDownloadPath
        (downloadWorker false hash (beh :: rest) st item).2.1.fs = none ∧
      ((lookupA item.cachedDownloadPath st.fs).isSome = true →
        (downloadWorker false hash (beh :: rest) st item).2.2
          = [Ev.removeFile item.cachedDownloadPath false,
             Ev.logError "Should not write to disk, cancelling download"])) ∧
    (∀ (sw : Bool) (hash : String → String) (net : List StreamBehavior)
       (st : DLState) (item : AddonModel),
      lookupA item st.progress = none →
      (downloadWorker sw hash net st item).1 = Except.ok none ∧
      countEv isNetGet (downloadWorker sw hash net st item).2.2 = 0) := by
  constructor
  · intro hash beh rest st item k hpr
    cases hcf : lookupA item.cachedDownloadPath st.fs with
    | none =>
      rw [downloadWorker.eq_def]
      simp [hcf, hpr, downloadAddonToPath, countEv_cons, countEv_nil,
        isNetGet, fsRemove, lookupA_eraseA_self]
    | some v =>
      rw [downloadWorker.eq_def]
      simp [hcf, hpr, downloadAddonToPath, countEv_cons, countEv_nil,
        isNetGet, fsRemove, lookupA_eraseA_self]
  · intro sw hash net st item hpn
    cases hcf : lookupA item.cachedDownloadPath st.fs with
    | none =>
      rw [downloadWorker.eq_def]
      cases net <;>
        simp [hcf, hpn, countEv_cons, countEv_nil, isNetGet]
    | some v =>
      rw [downloadWorker.eq_def]
      cases net <;>
        simp [hcf, hpn, countEv_cons, countEv_nil, isNetGet]

/-- Witness for C6_amended: gate off, stale file present, entry
present — the worker returns None. -/
theorem C6_witness :
    lookupA sampleItem stStale.progress = some 0 ∧
    (downloadWorker false sampleHash [StreamBehavior.ok ["d"]] stStale sampleItem).1
      = Except.ok none :=
  ⟨rfl, (C6_amended.1 sampleHash (StreamBehavior.ok ["d"]) [] stStale sampleItem 0 rfl).1⟩

/-- Claim C7 (confirmed): for a completed stream whose digest does not
match the declared checksum under the case-insensitive comparison, the
worker deletes the temporary file and raises the displayable
"download not safe / checksum failed" error; no file remains at the
temporary or final cache path and the download is not retried (one GET,
no certificate install). -/
theorem C7_spec (hash : String → String) (st : DLState) (item : AddonModel)
    (k : Nat) (chunks : List String) (rest : List StreamBehavior)
    (hpr : lookupA item st.progress = some k)
    (hne : item.tempDownloadPath ≠ item.cachedDownloadPath)
    (hnostale : lookupA item.cachedDownloadPath st.fs = none)
    (hck : checkChecksum hash (joinChunks chunks) item = false) :
    (downloadWorker true hash (.ok chunks :: rest) st item).1
      = Except.error
          (PyExn.displayable (msgChecksumFailed item.displayName) failureCaption) ∧
    lookupA item.tempDownloadPath
      (downloadWorker true hash (.ok chunks :: rest) st item).2.1.fs = none ∧
    lookupA item.cachedDownloadPath
      (downloadWorker true hash (.ok chunks :: rest) st item).2.1.fs = none ∧
    countEv isNetGet (downloadWorker true hash (.ok chunks :: rest) st item).2.2 = 1 ∧
    countEv isInstallCert
      (downloadWorker true hash (.ok chunks :: rest) st item).2.2 = 0 := by
  have hcore := (downloadWorker_okStream hash chunks rest st item k hpr hnostale).2 hck
  obtain ⟨hok, hfsT, hfsO, hprog, hpend, hcomp, hexec, htmp⟩ :=
    chunkLoop_present item item.tempDownloadPath chunks
      { st with fs := fsSet item.tempDownloadPath "" st.fs } k ""
      (by simpa using hpr) (by simp [fsSet, lookupA_setA_self])
  have hng := chunkLoop_count item item.tempDownloadPath isNetGet
    (fun _ _ => rfl) (fun _ _ _ => rfl) chunks
    { st with fs := fsSet item.tempDownloadPath "" st.fs }
  have hic := chunkLoop_count item item.tempDownloadPath isInstallCert
    (fun _ _ => rfl) (fun _ _ _ => rfl) chunks
    { st with fs := fsSet item.tempDownloadPath "" st.fs }
  rw [hcore]
  refine ⟨rfl, ?_, ?_, ?_, ?_⟩
  · simp [fsRemove, lookupA_eraseA_self]
  · have h1 : lookupA item.cachedDownloadPath (fsSet item.tempDownloadPath "" st.fs)
        = lookupA item.cachedDownloadPath st.fs := by
      rw [fsSet]
      exact lookupA_setA_ne _ _ (Ne.symm hne)
    rw [fsRemove, lookupA_eraseA_ne _ (Ne.symm hne),
      hfsO item.cachedDownloadPath (Ne.symm hne)]
    simpa [h1] using hnostale
  · simp [countEv_cons, countEv_append, countEv_nil, isNetGet, hng]
  · simp [countEv_cons, countEv_append, countEv_nil, isInstallCert, hic]

/-- Witness for C7_spec: the declared checksum "00" does not match the
digest "ab" of the streamed content. -/
theorem C7_witness :
    checkChecksum sampleHash (joinChunks ["da", "ta"]) badItem = false ∧
    (downloadWorker true sampleHash [StreamBehavior.ok ["da", "ta"]] stBad badItem).1
      = Except.error
          (PyExn.displayable (msgChecksumFailed badItem.displayName) failureCaption) :=
  ⟨by decide,
   (C7_spec sampleHash stBad badItem 0 ["da", "ta"] [] rfl (by decide) rfl
     (by decide)).1⟩

/-- Claim C8 (confirmed): on checksum success the worker publishes
with one single rename event, performed under the lock: the final cache
path then holds exactly the streamed content, the temporary file is
gone, no file deletion happens anywhere in the run (so the publish is
not a copy-then-delete), and the worker returns the final cache path. -/
theorem C8_spec (hash : String → String) (st : DLState) (item : AddonModel)
    (k : Nat) (chunks : List String) (rest : List StreamBehavior)
    (hpr : lookupA item st.progress = some k)
    (hne : item.tempDownloadPath ≠ item.cachedDownloadPath)
    (hnostale : lookupA item.cachedDownloadPath st.fs = none)
    (hck : checkChecksum hash (joinChunks chunks) item = true) :
    (downloadWorker true hash (.ok chunks :: rest) st item).1
      = Except.ok (some item.cachedDownloadPath) ∧
    lookupA item.cachedDownloadPath
      (downloadWorker true hash (.ok chunks :: rest) st item).2.1.fs
      = some (joinChunks chunks) ∧
    lookupA item.tempDownloadPath
      (downloadWorker true hash (.ok chunks :: rest) st item).2.1.fs = none ∧
    countEv isRenameEv (downloadWorker true hash (.ok chunks :: rest) st item).2.2 = 1 ∧
    Ev.renameFile item.tempDownloadPath item.cachedDownloadPath true
      ∈ (downloadWorker true hash (.ok chunks :: rest) st item).2.2 ∧
    countEv isRemoveFileEv
      (downloadWorker true hash (.ok chunks :: rest) st item).2.2 = 0 := by
  have hcore := (downloadWorker_okStream hash chunks rest st item k hpr hnostale).1 hck
  have hrn := chunkLoop_count item item.tempDownloadPath isRenameEv
    (fun _ _ => rfl) (fun _ _ _ => rfl) chunks
    { st with fs := fsSet item.tempDownloadPath "" st.fs }
  have hrm := chunkLoop_count item item.tempDownloadPath isRemoveFileEv
    (fun _ _ => rfl) (fun _ _ _ => rfl) chunks
    { st with fs := fsSet item.tempDownloadPath "" st.fs }
  have h3 : ∀ (v : String) (l : FS),
      lookupA item.tempDownloadPath (setA item.cachedDownloadPath v l)
        = lookupA item.tempDownloadPath l :=
    fun v l => lookupA_setA_ne v l hne
  rw [hcore]
  refine ⟨rfl, ?_, ?_, ?_, ?_, ?_⟩
  · simp [fsSet, fsRemove, lookupA_setA_self]
  · simp [fsSet, fsRemove, h3, lookupA_eraseA_self]
  · simp [countEv_cons, countEv_append, countEv_nil, isRenameEv, hrn]
  · simp
  · simp [countEv_cons, countEv_append, countEv_nil, isRemoveFileEv, hrm]

/-- Witness for C8_spec: declared checksum "AB" matches the digest
"ab" case-insensitively; the worker returns the cache path. -/
theorem C8_witness :
    checkChecksum sampleHash (joinChunks ["da", "ta"]) sampleItem = true ∧
    (downloadWorker true sampleHash [StreamBehavior.ok ["da", "ta"]] stBase sampleItem).1
      = Except.ok (some sampleItem.cachedDownloadPath) :=
  ⟨by decide,
   (C8_spec sampleHash stBase sampleItem 0 ["da", "ta"] [] rfl (by decide) rfl
     (by decide)).1⟩

end NvdaNet
